import Mathlib

set_option maxRecDepth 100000

/-!
Verification of `compressor_toolkit/precompilers.py`.

The module defines `BaseCompiler` (temp input-file creation and aggregation of
static directories from configured staticfiles finders) and two subclasses,
`SCSSCompiler` and `ES6Compiler`, which assemble shell-command options from the
aggregated directories.  We embed the data model and the operations shallowly:
Python strings become `String`, the set of static dirs becomes `Finset String`,
and the fallible finder resolution becomes `Except`.
-/

namespace CompressorToolkit

/-- A storage backend: exposes a root directory (`storage.location`). -/
structure Storage where
  location : String
deriving DecidableEq, Repr

/-- A staticfiles finder.  `hasattr(finder, 'storages')` /
`hasattr(finder, 'storage')` are modelled by `Option`: `none` means the
attribute is absent.  `storages` is a mapping name → storage; we keep its
values in insertion order as a list of pairs. -/
structure Finder where
  storages : Option (List (String × Storage))
  storage : Option Storage

/-- One finder's contribution inside the loop body of `get_all_static`
(lines 41–46): add every `storage.location` from the `storages` mapping,
then the single `storage.location` when present.  Mirrors the two
independent `if hasattr` blocks (not `elif`). -/
def addStorages (dirs : Finset String) (f : Finder) : Finset String :=
  let dirs1 :=
    match f.storages with
    | some m => m.foldl (fun acc p => insert p.2.location acc) dirs
    | none => dirs
  match f.storage with
  | some s => insert s.location dirs1
  | none => dirs1

/-- The loop of `get_all_static`: fold over the configured finder
identifiers, resolving each via `finders.get_finder` (modelled as the
`resolve` argument, which may fail) and accumulating locations. -/
def getAllStaticAux (resolve : String → Except String Finder)
    (acc : Finset String) : List String → Except String (Finset String)
  | [] => .ok acc
  | fid :: rest =>
    match resolve fid with
    | .error e => .error e
    | .ok f => getAllStaticAux resolve (addStorages acc f) rest

/-- `BaseCompiler.get_all_static` (lines 29–48): collect the set of static
directories found by the configured `STATICFILES_FINDERS`.  `resolve`
stands for `django.contrib.staticfiles.finders.get_finder`, which raises
on an unresolvable identifier (modelled as `Except.error`); the loop body
does not catch that, so the error propagates. -/
def get_all_static (resolve : String → Except String Finder)
    (finderIds : List String) : Except String (Finset String) :=
  getAllStaticAux resolve ∅ finderIds

/-- The set of root locations a single finder exposes. -/
def finderLocations (f : Finder) : Finset String :=
  (match f.storages with
   | some m => (m.map (fun p => p.2.location)).toFinset
   | none => ∅) ∪
  (match f.storage with
   | some s => {s.location}
   | none => ∅)

theorem foldl_insert_loc (m : List (String × Storage)) (dirs : Finset String) :
    m.foldl (fun acc p => insert p.2.location acc) dirs
      = dirs ∪ (m.map (fun p => p.2.location)).toFinset := by
  induction m generalizing dirs with
  | nil => simp
  | cons p rest ih =>
    simp only [List.foldl_cons, ih, List.map_cons, List.toFinset_cons]
    ext d
    simp [or_comm, or_assoc, or_left_comm]

theorem addStorages_eq (dirs : Finset String) (f : Finder) :
    addStorages dirs f = dirs ∪ finderLocations f := by
  unfold addStorages finderLocations
  cases f.storages with
  | none =>
    cases f.storage with
    | none => simp
    | some s => ext d; simp [or_comm]
  | some m =>
    cases f.storage with
    | none => simp [foldl_insert_loc]
    | some s =>
      simp only [foldl_insert_loc]
      ext d
      simp [or_comm, or_assoc, or_left_comm]

theorem mem_addStorages (dirs : Finset String) (f : Finder) (d : String) :
    d ∈ addStorages dirs f ↔ d ∈ dirs ∨ d ∈ finderLocations f := by
  rw [addStorages_eq]; simp

theorem getAllStaticAux_ok (resolve : String → Except String Finder)
    (ids : List String) (acc : Finset String)
    (h : ∀ fid ∈ ids, ∃ f, resolve fid = .ok f) :
    ∃ S, getAllStaticAux resolve acc ids = .ok S ∧
      ∀ d, d ∈ S ↔ d ∈ acc ∨
        ∃ fid f, fid ∈ ids ∧ resolve fid = .ok f ∧ d ∈ finderLocations f := by
  induction ids generalizing acc with
  | nil =>
    refine ⟨acc, rfl, ?_⟩
    simp
  | cons fid rest ih =>
    obtain ⟨f, hf⟩ := h fid (by simp)
    obtain ⟨S, hS, hmem⟩ := ih (addStorages acc f)
      (fun x hx => h x (by simp [hx]))
    refine ⟨S, ?_, ?_⟩
    · simp [getAllStaticAux, hf, hS]
    · intro d
      rw [hmem d, mem_addStorages]
      constructor
      · rintro ((hd | hd) | ⟨g, fg, hg, hgres, hgl⟩)
        · exact Or.inl hd
        · exact Or.inr ⟨fid, f, by simp, hf, hd⟩
        · exact Or.inr ⟨g, fg, by simp [hg], hgres, hgl⟩
      · rintro (hd | ⟨g, fg, hg, hgres, hgl⟩)
        · exact Or.inl (Or.inl hd)
        · rcases List.mem_cons.mp hg with hgfid | hgrest
          · subst hgfid
            rw [hf] at hgres
            cases hgres
            exact Or.inl (Or.inr hgl)
          · exact Or.inr ⟨g, fg, hgrest, hgres, hgl⟩

/-! ### String helpers

Executable embeddings of the Python string operations the module uses:
`sub in hay` (membership test) and `sep.join(list)`. -/

/-- `listStarts sub l` : does `l` start with `sub`? -/
def listStarts : List Char → List Char → Bool
  | [], _ => true
  | _ :: _, [] => false
  | a :: as, b :: bs => a == b && listStarts as bs

/-- `listHas sub l` : does `sub` occur contiguously inside `l`? -/
def listHas (sub : List Char) : List Char → Bool
  | [] => sub.isEmpty
  | c :: rest => listStarts sub (c :: rest) || listHas sub rest

/-- Python's `sub in hay` on strings. -/
def strHas (hay sub : String) : Bool := listHas sub.data hay.data

/-- Python's `sep.join(parts)`. -/
def joinStr (sep : String) : List String → String
  | [] => ""
  | [x] => x
  | x :: xs => x ++ (sep ++ joinStr sep xs)

/-! ### Option construction (SCSSCompiler / ES6Compiler `__init__`) -/

/-- `'--include-path {}'.format(s)` (line 83). -/
def includeFlag (s : String) : String := "--include-path " ++ s

/-- The value of the SCSS `paths` option (line 83):
`' '.join(['--include-path {}'.format(s) for s in dirs])`.  The iteration
order of the Python `set` is unspecified, so the aggregated directories are
taken as a list in an arbitrary order. -/
def scssPathsValue (dirs : List String) : String :=
  joinStr " " (dirs.map includeFlag)

/-- `os.pathsep` on POSIX platforms (used at line 118). -/
def pathsep : String := ":"

/-- The value of the ES6 `paths` option (line 118):
`os.pathsep.join(self.get_all_static())`. -/
def es6PathsValue (dirs : List String) : String :=
  joinStr pathsep dirs

/-- `getattr(settings, 'COMPRESS_NODE_MODULES', '/usr/lib/node_modules')`
(line 117); the setting may be absent, modelled as `Option`. -/
def nodeModulesValue (compressNodeModules : Option String) : String :=
  compressNodeModules.getD "/usr/lib/node_modules"

/-- `SCSSCompiler.command` (lines 60–63). -/
def scssCommand : String :=
  "node-sass --output-style expanded {paths} {infile} {outfile} && postcss --use autoprefixer --autoprefixer.browsers \"ie >= 9, > 5%\" -r {outfile}"

/-- `ES6Compiler.command` (lines 95–99). -/
def es6Command : String :=
  "export NODE_PATH={paths} && browserify \"{infile}\" -o \"{outfile}\" --no-bundle-external --node -t [ {node_modules}/babelify --presets={node_modules}/babel-preset-es2015 ]"

namespace SCSSCompiler

/-- `SCSSCompiler.infile_ext` (line 65). -/
def infile_ext : String := ".scss"

end SCSSCompiler

namespace ES6Compiler

/-- `ES6Compiler.infile_ext` (line 101). -/
def infile_ext : String := ".js"

end ES6Compiler

/-- `SCSSCompiler.__init__` (lines 82–84): `self.options += (('paths', ...),)`. -/
def scssInitOptions (prev : List (String × String)) (dirs : List String) :
    List (String × String) :=
  prev ++ [("paths", scssPathsValue dirs)]

/-- `ES6Compiler.__init__` (lines 116–119): `self.options += (('node_modules',
getattr(...)), ('paths', os.pathsep.join(...)))`. -/
def es6InitOptions (prev : List (String × String))
    (compressNodeModules : Option String) (dirs : List String) :
    List (String × String) :=
  prev ++ [("node_modules", nodeModulesValue compressNodeModules),
           ("paths", es6PathsValue dirs)]

/-! ### Command-template substitution

Modelled from the spec: the substitution of named placeholders in the command
template is performed by the external filter framework (Python
`self.command.format(**options)`), whose code is not part of this repository.
A template is parsed into literal characters and `{name}` placeholders
(`{{` / `}}` are literal braces, an unterminated `{` or a lone `}` is an
error, as in `str.format`); each placeholder is then replaced by the value of
the option of that name, and a placeholder with no corresponding option is a
substitution error. -/

/-- A parsed template item: a literal character or a named placeholder. -/
inductive TItem where
  | lit : Char → TItem
  | ph : String → TItem
deriving DecidableEq, Repr

/-- Modelled from the spec: template parsing, as done by the external
framework's `str.format`.  The first argument is `none` outside a
placeholder, `some acc` inside one with the name characters read so far
(reversed). -/
def parseA : Option (List Char) → List Char → Except String (List TItem)
  | none, [] => .ok []
  | some _, [] => .error "unmatched opening brace in template"
  | none, '{' :: '{' :: rest => (TItem.lit '{' :: ·) <$> parseA none rest
  | none, '{' :: rest => parseA (some []) rest
  | none, '}' :: '}' :: rest => (TItem.lit '}' :: ·) <$> parseA none rest
  | none, '}' :: _ => .error "single closing brace in template"
  | none, c :: rest => (TItem.lit c :: ·) <$> parseA none rest
  | some acc, '}' :: rest => (TItem.ph (String.mk acc.reverse) :: ·) <$> parseA none rest
  | some acc, c :: rest => parseA (some (c :: acc)) rest

/-- Look an option up by name.  The framework builds `dict(self.options)`,
in which a later pair with the same name wins, hence the `reverse`. -/
def lookupOpt (opts : List (String × String)) (name : String) : Option String :=
  (opts.reverse.find? (fun p => p.1 == name)).map (fun p => p.2)

/-- Modelled from the spec: substitute each placeholder by its option value;
a placeholder with no corresponding option is a substitution error. -/
def substItems (opts : List (String × String)) : List TItem → Except String (List Char)
  | [] => .ok []
  | .lit c :: rest => (c :: ·) <$> substItems opts rest
  | .ph n :: rest =>
    match lookupOpt opts n with
    | some v => (v.data ++ ·) <$> substItems opts rest
    | none => .error n

/-- Modelled from the spec: `self.command.format(**options)`. -/
def formatCommand (template : String) (opts : List (String × String)) :
    Except String String :=
  match parseA none template.data with
  | .error e => .error e
  | .ok items =>
    match substItems opts items with
    | .error e => .error e
    | .ok cs => .ok (String.mk cs)

/-! ### The compile job -/

/-- A temporary file (`NamedTemporaryFile`): its path, the bytes written to
it, and whether it has been flushed.  The encoded bytes are kept as a
`String`. -/
structure TempFile where
  path : String
  content : String
  flushed : Bool
deriving DecidableEq, Repr

/-- The state of a compiler/filter object at the start of `input()`:
`self.infile`, `self.filename`, `self.options`, `self.command`,
`self.content`, `self.default_encoding`. -/
structure CompilerState where
  infile : Option TempFile
  filename : Option String
  options : List (String × String)
  command : String
  content : String
  default_encoding : String

/-- `BaseCompiler.input` (lines 19–26), up to the delegation to the framework
base class: when no input file exists yet, the command template mentions
`{infile}` and no filename was supplied, create a `NamedTemporaryFile` with
suffix `infile_ext` (its path is a fresh base name with the suffix appended),
write the content encoded with the default encoding, flush, and append an
`('infile', path)` pair to the options.  `encode enc s` stands for
`s.encode(enc)`; `freshBase` stands for the fresh temp-file name chosen by
the operating system.  Returns the updated state and the file created, if
any. -/
def baseCompilerInput (encode : String → String → String) (infile_ext : String)
    (freshBase : String) (st : CompilerState) : CompilerState × Option TempFile :=
  if st.infile.isNone && strHas st.command "{infile}" then
    if st.filename.isNone then
      let f : TempFile := { path := freshBase ++ infile_ext,
                            content := encode st.default_encoding st.content,
                            flushed := true }
      ({ st with infile := some f,
                 options := st.options ++ [("infile", f.path)] }, some f)
    else (st, none)
  else (st, none)

/-- The outcome of running the built command as a subprocess. -/
inductive InvokeResult where
  | ok : String → InvokeResult
  | fail : String → InvokeResult

/-- Modelled from the spec: the framework closes the temporary input file
when the job's processing ends (a `finally` block), which deletes it from
the filesystem. -/
def cleanup (infile : Option TempFile) (fs : List String) : List String :=
  match infile with
  | some f => fs.erase f.path
  | none => fs

/-- Modelled from the spec: one job's processing as driven by the external
filter framework after the `BaseCompiler.input` override ran.  The template
is substituted with the resolved options; only a fully substituted command is
handed to the subprocess invoker (`invoke`); on every exit path — successful
compilation, compiler failure, or substitution error — the temporary input
file is released.  `fs` is the set of existing temp files, as a list of
paths; the result is `(outcome, final files, commands handed to the
invoker)`. -/
def runJob (encode : String → String → String) (infile_ext : String)
    (freshBase : String) (invoke : String → InvokeResult)
    (st : CompilerState) (fs : List String) :
    Except String String × List String × List String :=
  let stf := baseCompilerInput encode infile_ext freshBase st
  let fs2 := match stf.2 with
             | some f => fs ++ [f.path]
             | none => fs
  let outcome : Except String String × List String :=
    match formatCommand stf.1.command stf.1.options with
    | .error e => (.error e, [])
    | .ok cmd =>
      match invoke cmd with
      | .fail err => (.error err, [cmd])
      | .ok out => (.ok out, [cmd])
  (outcome.1, cleanup stf.1.infile fs2, outcome.2)

/-! ### Helper lemmas -/

theorem joinStr_mem_occurs (sep : String) (l : List String) (x : String)
    (hx : x ∈ l) :
    ∃ pre post : List Char, (joinStr sep l).data = pre ++ (x.data ++ post) := by
  induction l with
  | nil => cases hx
  | cons y ys ih =>
    cases ys with
    | nil =>
      rcases List.mem_singleton.mp hx with rfl
      exact ⟨[], [], by simp [joinStr]⟩
    | cons z zs =>
      rcases List.mem_cons.mp hx with rfl | hx'
      · refine ⟨[], sep.data ++ (joinStr sep (z :: zs)).data, ?_⟩
        simp [joinStr, String.data_append]
      · obtain ⟨p, q, hp⟩ := ih hx'
        refine ⟨y.data ++ sep.data ++ p, q, ?_⟩
        simp [joinStr, String.data_append, hp]

theorem substItems_append_ok (opts : List (String × String)) (a b : List TItem)
    (ca cb : List Char) (ha : substItems opts a = .ok ca)
    (hb : substItems opts b = .ok cb) :
    substItems opts (a ++ b) = .ok (ca ++ cb) := by
  induction a generalizing ca with
  | nil =>
    simp [substItems] at ha
    subst ha
    simpa using hb
  | cons it rest ih =>
    cases it with
    | lit c =>
      simp only [substItems] at ha ⊢
      cases hrest : substItems opts rest with
      | error e => rw [hrest] at ha; simp [Functor.map, Except.map] at ha
      | ok cr =>
        rw [hrest] at ha
        simp [Functor.map, Except.map] at ha
        subst ha
        simp [List.cons_append, substItems, ih cr hrest, hb, Functor.map, Except.map]
    | ph n =>
      simp only [substItems] at ha ⊢
      cases hl : lookupOpt opts n with
      | none => rw [hl] at ha; simp at ha
      | some v =>
        rw [hl] at ha
        cases hrest : substItems opts rest with
        | error e => rw [hrest] at ha; simp [Functor.map, Except.map] at ha
        | ok cr =>
          rw [hrest] at ha
          simp [Functor.map, Except.map] at ha
          subst ha
          simp [List.cons_append, substItems, hl, ih cr hrest, hb, Functor.map,
            Except.map]

theorem substItems_lits (opts : List (String × String)) (l : List Char) :
    substItems opts (l.map TItem.lit) = .ok l := by
  induction l with
  | nil => rfl
  | cons c rest ih => simp [substItems, ih, Functor.map, Except.map]

theorem substItems_ph (opts : List (String × String)) (n : String) (v : String)
    (h : lookupOpt opts n = some v) :
    substItems opts [TItem.ph n] = .ok v.data := by
  simp [substItems, h, Functor.map, Except.map]

theorem substItems_unbound (opts : List (String × String)) (items : List TItem)
    (n : String) (hn : TItem.ph n ∈ items) (hl : lookupOpt opts n = none) :
    ∃ e, substItems opts items = .error e := by
  induction items with
  | nil => cases hn
  | cons it rest ih =>
    cases it with
    | lit c =>
      have hn' : TItem.ph n ∈ rest := by
        rcases List.mem_cons.mp hn with h | h
        · cases h
        · exact h
      obtain ⟨e, he⟩ := ih hn'
      exact ⟨e, by simp [substItems, he, Functor.map, Except.map]⟩
    | ph m =>
      cases hm : lookupOpt opts m with
      | none => exact ⟨m, by simp [substItems, hm]⟩
      | some v =>
        have hn' : TItem.ph n ∈ rest := by
          rcases List.mem_cons.mp hn with h | h
          · cases h
            rw [hm] at hl
            cases hl
          · exact h
        obtain ⟨e, he⟩ := ih hn'
        exact ⟨e, by simp [substItems, hm, he, Functor.map, Except.map]⟩

theorem formatCommand_unbound (template : String) (opts : List (String × String))
    (items : List TItem) (n : String)
    (hp : parseA none template.data = .ok items)
    (hn : TItem.ph n ∈ items) (hl : lookupOpt opts n = none) :
    ∃ e, formatCommand template opts = .error e := by
  obtain ⟨e, he⟩ := substItems_unbound opts items n hn hl
  exact ⟨e, by simp [formatCommand, hp, he]⟩

theorem string_mk_data (s : String) : String.mk s.data = s := rfl

theorem string_data_mk (l : List Char) : (String.mk l).data = l := rfl

theorem getAllStaticAux_error (resolve : String → Except String Finder)
    (ids : List String) (acc : Finset String)
    (h : ∃ fid ∈ ids, ∃ e, resolve fid = .error e) :
    ∃ e, getAllStaticAux resolve acc ids = .error e := by
  induction ids generalizing acc with
  | nil => simp at h
  | cons fid rest ih =>
    cases hres : resolve fid with
    | error e => exact ⟨e, by simp [getAllStaticAux, hres]⟩
    | ok f =>
      obtain ⟨g, hg, e, he⟩ := h
      rcases List.mem_cons.mp hg with rfl | hgrest
      · rw [hres] at he; cases he
      · exact ih (addStorages acc f) ⟨g, hgrest, e, he⟩ |>.imp
          (fun e' he' => by simpa [getAllStaticAux, hres] using he')

/-! ### Claim theorems -/

/-- C1: for every configured list of finder identifiers (all of which
resolve), `get_all_static` returns a set of directory paths whose members
are exactly the root locations exposed by the resolved finders' storage
backends — being a `Finset`, it holds each path once, even when two finders
expose the same underlying path. -/
theorem get_all_static_dedup (resolve : String → Except String Finder)
    (ids : List String)
    (h : ∀ fid ∈ ids, ∃ f, resolve fid = .ok f) :
    ∃ S : Finset String, get_all_static resolve ids = .ok S ∧
      ∀ d, d ∈ S ↔ ∃ fid f, fid ∈ ids ∧ resolve fid = .ok f ∧
        d ∈ finderLocations f := by
  obtain ⟨S, hS, hmem⟩ := getAllStaticAux_ok resolve ids ∅ h
  exact ⟨S, hS, fun d => by simpa using hmem d⟩

/-- A concrete finder configuration used in the witnesses: finder `"app"`
exposes the path `/s` through a `storages` mapping, finder `"fs"` exposes
the same path `/s` through a single `storage`, and every other identifier
fails to resolve. -/
def demoResolve : String → Except String Finder :=
  fun fid =>
    if fid = "app" then .ok ⟨some [("a", ⟨"/s"⟩)], none⟩
    else if fid = "fs" then .ok ⟨none, some ⟨"/s"⟩⟩
    else if fid = "plain" then .ok ⟨none, none⟩
    else .error ("no finder " ++ fid)

theorem get_all_static_dedup_witness :
    (∀ fid ∈ ["app", "fs"], ∃ f, demoResolve fid = .ok f) ∧
    (∃ S : Finset String, get_all_static demoResolve ["app", "fs"] = .ok S ∧
      ∀ d, d ∈ S ↔ ∃ fid f, fid ∈ ["app", "fs"] ∧ demoResolve fid = .ok f ∧
        d ∈ finderLocations f) := by
  have h : ∀ fid ∈ ["app", "fs"], ∃ f, demoResolve fid = .ok f := by
    intro fid hfid
    rcases List.mem_cons.mp hfid with rfl | hfid'
    · exact ⟨_, rfl⟩
    · rcases List.mem_singleton.mp hfid' with rfl
      exact ⟨_, rfl⟩
  exact ⟨h, get_all_static_dedup demoResolve ["app", "fs"] h⟩

/-- C2: one loop iteration of `get_all_static` resolves the identifier and
accumulates the finder's contribution: every root from a `storages` mapping
is added, the root of a single `storage` is added, and a finder exposing
neither leaves the accumulated set unchanged (no error is raised). -/
theorem get_all_static_per_finder (resolve : String → Except String Finder)
    (fid : String) (rest : List String) (acc dirs : Finset String) (f : Finder)
    (hres : resolve fid = .ok f) :
    getAllStaticAux resolve acc (fid :: rest)
        = getAllStaticAux resolve (addStorages acc f) rest ∧
    (∀ m, f.storages = some m → ∀ p ∈ m, p.2.location ∈ addStorages dirs f) ∧
    (∀ s, f.storage = some s → s.location ∈ addStorages dirs f) ∧
    (f.storages = none → f.storage = none → addStorages dirs f = dirs) := by
  refine ⟨by simp [getAllStaticAux, hres], ?_, ?_, ?_⟩
  · intro m hm p hp
    rw [mem_addStorages]
    refine Or.inr ?_
    unfold finderLocations
    rw [hm]
    simp only [Finset.mem_union]
    exact Or.inl (by simp; exact ⟨p.1, p.2, hp, rfl⟩)
  · intro s hs
    rw [mem_addStorages]
    refine Or.inr ?_
    unfold finderLocations
    rw [hs]
    simp
  · intro h1 h2
    rw [addStorages_eq]
    unfold finderLocations
    rw [h1, h2]
    simp

theorem get_all_static_per_finder_witness :
    getAllStaticAux demoResolve ∅ ["fs"]
        = getAllStaticAux demoResolve (addStorages ∅ ⟨none, some ⟨"/s"⟩⟩) [] ∧
    (Storage.mk "/s").location ∈ addStorages ∅ ⟨none, some ⟨"/s"⟩⟩ ∧
    (Storage.mk "/s").location
        ∈ addStorages ∅ ⟨some [("a", ⟨"/s"⟩)], none⟩ ∧
    addStorages ∅ (⟨none, none⟩ : Finder) = ∅ :=
  ⟨(get_all_static_per_finder demoResolve "fs" [] ∅ ∅ ⟨none, some ⟨"/s"⟩⟩ rfl).1,
   (get_all_static_per_finder demoResolve "fs" [] ∅ ∅ ⟨none, some ⟨"/s"⟩⟩
      rfl).2.2.1 ⟨"/s"⟩ rfl,
   (get_all_static_per_finder demoResolve "app" [] ∅ ∅ ⟨some [("a", ⟨"/s"⟩)], none⟩
      rfl).2.1 [("a", ⟨"/s"⟩)] rfl ("a", ⟨"/s"⟩) (by simp),
   (get_all_static_per_finder demoResolve "plain" [] ∅ ∅ ⟨none, none⟩ rfl).2.2.2
      rfl rfl⟩

/-- C9: a configured finder identifier that cannot be resolved makes
`get_all_static` fail with the resolution error — the loop calls the
resolver without catching, so the whole job fails fast instead of silently
skipping the finder. -/
theorem unresolvable_finder_propagates (resolve : String → Except String Finder)
    (ids : List String) (h : ∃ fid ∈ ids, ∃ e, resolve fid = .error e) :
    ∃ e, get_all_static resolve ids = .error e :=
  getAllStaticAux_error resolve ids ∅ h

theorem unresolvable_finder_propagates_witness :
    ∃ e, get_all_static demoResolve ["app", "gone"] = .error e :=
  unresolvable_finder_propagates demoResolve ["app", "gone"]
    ⟨"gone", by simp, "no finder gone", rfl⟩

/-- C3: when the command template mentions `{infile}` and neither an input
file nor a caller-supplied filename exists, `input()` creates a temporary
file whose path ends in the toolchain's required extension (`.scss` for
`SCSSCompiler`, `.js` for `ES6Compiler`), writes the content encoded with
the default encoding to it, flushes it, and appends an
`('infile', path)` pair to the options. -/
theorem input_creates_tempfile (encode : String → String → String)
    (ext freshBase : String) (st : CompilerState)
    (h1 : st.infile = none) (h2 : strHas st.command "{infile}" = true)
    (h3 : st.filename = none) :
    (∃ f : TempFile,
      (baseCompilerInput encode ext freshBase st).2 = some f ∧
      (baseCompilerInput encode ext freshBase st).1.infile = some f ∧
      (∃ base, f.path = base ++ ext) ∧
      f.content = encode st.default_encoding st.content ∧
      f.flushed = true ∧
      (baseCompilerInput encode ext freshBase st).1.options
        = st.options ++ [("infile", f.path)]) ∧
    SCSSCompiler.infile_ext = ".scss" ∧ ES6Compiler.infile_ext = ".js" := by
  refine ⟨⟨⟨freshBase ++ ext, encode st.default_encoding st.content, true⟩,
    ?_, ?_, ⟨freshBase, rfl⟩, rfl, rfl, ?_⟩, rfl, rfl⟩ <;>
    simp [baseCompilerInput, h1, h2, h3]

theorem input_creates_tempfile_witness :
    (∃ f : TempFile,
      (baseCompilerInput (fun _ s => s) ".scss" "/tmp/t1"
        ⟨none, none, [], "sass {infile} {outfile}", "body", "utf-8"⟩).2 = some f ∧
      (baseCompilerInput (fun _ s => s) ".scss" "/tmp/t1"
        ⟨none, none, [], "sass {infile} {outfile}", "body", "utf-8"⟩).1.infile
          = some f ∧
      (∃ base, f.path = base ++ ".scss") ∧
      f.content = (fun (_ s : String) => s) "utf-8" "body" ∧
      f.flushed = true ∧
      (baseCompilerInput (fun _ s => s) ".scss" "/tmp/t1"
        ⟨none, none, [], "sass {infile} {outfile}", "body", "utf-8"⟩).1.options
          = [] ++ [("infile", f.path)]) ∧
    SCSSCompiler.infile_ext = ".scss" ∧ ES6Compiler.infile_ext = ".js" :=
  input_creates_tempfile (fun _ s => s) ".scss" "/tmp/t1"
    ⟨none, none, [], "sass {infile} {outfile}", "body", "utf-8"⟩ rfl rfl rfl

/-- C7: when a temporary input file is created for a job, the job's final
filesystem state no longer contains it, whatever the exit path — the
second component of `runJob` is the same on substitution error, on compiler
failure and on success, and under a fresh temp path it equals the original
file list, so the created file is gone. -/
theorem temp_released_all_paths (encode : String → String → String)
    (ext freshBase : String) (invoke : String → InvokeResult)
    (st : CompilerState) (fs : List String)
    (h1 : st.infile = none) (h2 : strHas st.command "{infile}" = true)
    (h3 : st.filename = none) (h4 : (freshBase ++ ext) ∉ fs) :
    (∃ f : TempFile, (baseCompilerInput encode ext freshBase st).2 = some f ∧
      f.path = freshBase ++ ext) ∧
    (runJob encode ext freshBase invoke st fs).2.1 = fs ∧
    (freshBase ++ ext) ∉ (runJob encode ext freshBase invoke st fs).2.1 := by
  have hb : baseCompilerInput encode ext freshBase st
      = ({ st with
            infile := some ⟨freshBase ++ ext, encode st.default_encoding st.content, true⟩,
            options := st.options ++ [("infile", freshBase ++ ext)] },
         some ⟨freshBase ++ ext, encode st.default_encoding st.content, true⟩) := by
    simp [baseCompilerInput, h1, h2, h3]
  have hfs : (runJob encode ext freshBase invoke st fs).2.1 = fs := by
    show cleanup _ _ = fs
    rw [hb]
    simp only [cleanup]
    rw [List.erase_append_right _ (by simpa using h4)]
    simp
  exact ⟨⟨_, by rw [hb], rfl⟩, hfs, by rw [hfs]; exact h4⟩

theorem temp_released_all_paths_witness :
    (∃ f : TempFile,
      (baseCompilerInput (fun _ s => s) ".js" "/tmp/t2"
        ⟨none, none, [], "cc {infile}", "x", "utf-8"⟩).2 = some f ∧
      f.path = "/tmp/t2" ++ ".js") ∧
    (runJob (fun _ s => s) ".js" "/tmp/t2" (fun _ => InvokeResult.ok "out")
      ⟨none, none, [], "cc {infile}", "x", "utf-8"⟩ ["/tmp/other"]).2.1
        = ["/tmp/other"] ∧
    ("/tmp/t2" ++ ".js") ∉
      (runJob (fun _ s => s) ".js" "/tmp/t2" (fun _ => InvokeResult.ok "out")
        ⟨none, none, [], "cc {infile}", "x", "utf-8"⟩ ["/tmp/other"]).2.1 :=
  temp_released_all_paths (fun _ s => s) ".js" "/tmp/t2"
    (fun _ => InvokeResult.ok "out")
    ⟨none, none, [], "cc {infile}", "x", "utf-8"⟩ ["/tmp/other"]
    rfl rfl rfl (by decide)

/-- C8: when the job's command template contains a placeholder that has no
value in the job's resolved options, the job fails with a substitution
error and the invoker receives no command at all — in particular no
partially substituted command string is ever handed to it. -/
theorem unbound_placeholder_fails_first (encode : String → String → String)
    (ext freshBase : String) (invoke : String → InvokeResult)
    (st : CompilerState) (fs : List String) (items : List TItem) (n : String)
    (hp : parseA none (baseCompilerInput encode ext freshBase st).1.command.data
      = .ok items)
    (hn : TItem.ph n ∈ items)
    (hl : lookupOpt (baseCompilerInput encode ext freshBase st).1.options n
      = none) :
    (∃ e, (runJob encode ext freshBase invoke st fs).1 = .error e) ∧
    (runJob encode ext freshBase invoke st fs).2.2 = [] := by
  obtain ⟨e, he⟩ := formatCommand_unbound _ _ items n hp hn hl
  unfold runJob
  simp only [he]
  exact ⟨⟨e, rfl⟩, trivial⟩

theorem unbound_placeholder_fails_first_witness :
    (∃ e, (runJob (fun _ s => s) ".scss" "/tmp/t3" (fun _ => InvokeResult.ok "o")
      ⟨none, none, [], "echo {missing}", "", "utf-8"⟩ []).1 = .error e) ∧
    (runJob (fun _ s => s) ".scss" "/tmp/t3" (fun _ => InvokeResult.ok "o")
      ⟨none, none, [], "echo {missing}", "", "utf-8"⟩ []).2.2 = [] :=
  unbound_placeholder_fails_first (fun _ s => s) ".scss" "/tmp/t3"
    (fun _ => InvokeResult.ok "o")
    ⟨none, none, [], "echo {missing}", "", "utf-8"⟩ []
    ("echo ".data.map TItem.lit ++ [TItem.ph "missing"]) "missing"
    (by rfl) (by decide) rfl

/-- The command built by the SCSS toolchain for the aggregated roots
`/a/static`, `/b/static` taken in that order. -/
def scssBuiltAB : String :=
  "node-sass --output-style expanded --include-path /a/static --include-path /b/static in.scss out.css && postcss --use autoprefixer --autoprefixer.browsers \"ie >= 9, > 5%\" -r out.css"

/-- The command built by the SCSS toolchain for the aggregated roots taken
in the opposite order. -/
def scssBuiltBA : String :=
  "node-sass --output-style expanded --include-path /b/static --include-path /a/static in.scss out.css && postcss --use autoprefixer --autoprefixer.browsers \"ie >= 9, > 5%\" -r out.css"

/-- C4: every aggregated root appears in the SCSS `paths` option value as a
`--include-path <dir>` flag (the flags are space-joined), and for the
aggregator result `{/a/static, /b/static}`, in either iteration order, the
built command contains both `--include-path /a/static` and
`--include-path /b/static`. -/
theorem scss_paths_option (dirs : List String) (d : String) (hd : d ∈ dirs) :
    (∃ pre post : List Char,
      (scssPathsValue dirs).data = pre ++ ((includeFlag d).data ++ post)) ∧
    formatCommand scssCommand (scssInitOptions [] ["/a/static", "/b/static"]
        ++ [("infile", "in.scss"), ("outfile", "out.css")]) = .ok scssBuiltAB ∧
    strHas scssBuiltAB "--include-path /a/static" = true ∧
    strHas scssBuiltAB "--include-path /b/static" = true ∧
    formatCommand scssCommand (scssInitOptions [] ["/b/static", "/a/static"]
        ++ [("infile", "in.scss"), ("outfile", "out.css")]) = .ok scssBuiltBA ∧
    strHas scssBuiltBA "--include-path /a/static" = true ∧
    strHas scssBuiltBA "--include-path /b/static" = true := by
  refine ⟨?_, by rfl, by rfl, by rfl, by rfl, by rfl, by rfl⟩
  exact joinStr_mem_occurs " " (dirs.map includeFlag) (includeFlag d)
    (List.mem_map_of_mem includeFlag hd)

theorem scss_paths_option_witness :
    (∃ pre post : List Char,
      (scssPathsValue ["/x"]).data = pre ++ ((includeFlag "/x").data ++ post)) ∧
    formatCommand scssCommand (scssInitOptions [] ["/a/static", "/b/static"]
        ++ [("infile", "in.scss"), ("outfile", "out.css")]) = .ok scssBuiltAB ∧
    strHas scssBuiltAB "--include-path /a/static" = true ∧
    strHas scssBuiltAB "--include-path /b/static" = true ∧
    formatCommand scssCommand (scssInitOptions [] ["/b/static", "/a/static"]
        ++ [("infile", "in.scss"), ("outfile", "out.css")]) = .ok scssBuiltBA ∧
    strHas scssBuiltBA "--include-path /a/static" = true ∧
    strHas scssBuiltBA "--include-path /b/static" = true :=
  scss_paths_option ["/x"] "/x" (by simp)

/-- C5: the ES6 `paths` option value is the platform-path-separator join of
the aggregated roots: every root occurs inside it, it is looked up from the
options built by `ES6Compiler.__init__`, and for the two-root aggregator
result, in either iteration order, it is the two paths separated by the
separator. -/
theorem es6_paths_option (dirs : List String) (d : String) (hd : d ∈ dirs) :
    (∃ pre post : List Char,
      (es6PathsValue dirs).data = pre ++ (d.data ++ post)) ∧
    lookupOpt (es6InitOptions [] none dirs) "paths" = some (es6PathsValue dirs) ∧
    es6PathsValue ["/a/static", "/b/static"] = "/a/static" ++ pathsep ++ "/b/static" ∧
    es6PathsValue ["/b/static", "/a/static"] = "/b/static" ++ pathsep ++ "/a/static" := by
  exact ⟨joinStr_mem_occurs pathsep dirs d hd, rfl, rfl, rfl⟩

theorem es6_paths_option_witness :
    (∃ pre post : List Char,
      (es6PathsValue ["/x"]).data = pre ++ (("/x" : String).data ++ post)) ∧
    lookupOpt (es6InitOptions [] none ["/x"]) "paths"
      = some (es6PathsValue ["/x"]) ∧
    es6PathsValue ["/a/static", "/b/static"] = "/a/static" ++ pathsep ++ "/b/static" ∧
    es6PathsValue ["/b/static", "/a/static"] = "/b/static" ++ pathsep ++ "/a/static" :=
  es6_paths_option ["/x"] "/x" (by simp)

theorem getAllStaticAux_no_storage (resolve : String → Except String Finder)
    (ids : List String) (acc : Finset String)
    (h : ∀ fid ∈ ids, ∃ f, resolve fid = .ok f ∧
      f.storages = none ∧ f.storage = none) :
    getAllStaticAux resolve acc ids = .ok acc := by
  induction ids generalizing acc with
  | nil => rfl
  | cons fid rest ih =>
    obtain ⟨f, hf, h1, h2⟩ := h fid (by simp)
    have hadd : addStorages acc f = acc := by
      rw [addStorages_eq]
      unfold finderLocations
      rw [h1, h2]
      simp
    simp [getAllStaticAux, hf, hadd, ih acc (fun x hx => h x (by simp [hx]))]

/-- C6: with zero configured finders — and likewise with any configured
finders none of which exposes a `storages` or `storage` attribute —
`get_all_static` returns the empty set, both toolchains' `paths` option
values are the empty string, and the `{paths}` placeholder is substituted
by the empty string — zero `--include-path` flags in the SCSS command, an
empty `NODE_PATH` value in the ES6 command. -/
theorem empty_finders_empty_paths (resolve : String → Except String Finder)
    (ids : List String)
    (h : ∀ fid ∈ ids, ∃ f, resolve fid = .ok f ∧
      f.storages = none ∧ f.storage = none) :
    get_all_static resolve [] = .ok ∅ ∧
    get_all_static resolve ids = .ok ∅ ∧
    scssPathsValue [] = "" ∧
    es6PathsValue [] = "" ∧
    formatCommand scssCommand (scssInitOptions [] []
        ++ [("infile", "in.scss"), ("outfile", "out.css")])
      = .ok "node-sass --output-style expanded  in.scss out.css && postcss --use autoprefixer --autoprefixer.browsers \"ie >= 9, > 5%\" -r out.css" ∧
    formatCommand es6Command (es6InitOptions [] none []
        ++ [("infile", "in.js"), ("outfile", "out.js")])
      = .ok "export NODE_PATH= && browserify \"in.js\" -o \"out.js\" --no-bundle-external --node -t [ /usr/lib/node_modules/babelify --presets=/usr/lib/node_modules/babel-preset-es2015 ]" :=
  ⟨rfl, getAllStaticAux_no_storage resolve ids ∅ h, rfl, rfl, rfl, rfl⟩

theorem empty_finders_empty_paths_witness :
    get_all_static demoResolve [] = .ok ∅ ∧
    get_all_static demoResolve ["plain"] = .ok ∅ ∧
    scssPathsValue [] = "" ∧
    es6PathsValue [] = "" ∧
    formatCommand scssCommand (scssInitOptions [] []
        ++ [("infile", "in.scss"), ("outfile", "out.css")])
      = .ok "node-sass --output-style expanded  in.scss out.css && postcss --use autoprefixer --autoprefixer.browsers \"ie >= 9, > 5%\" -r out.css" ∧
    formatCommand es6Command (es6InitOptions [] none []
        ++ [("infile", "in.js"), ("outfile", "out.js")])
      = .ok "export NODE_PATH= && browserify \"in.js\" -o \"out.js\" --no-bundle-external --node -t [ /usr/lib/node_modules/babelify --presets=/usr/lib/node_modules/babel-preset-es2015 ]" :=
  empty_finders_empty_paths demoResolve ["plain"] (by
    intro fid hfid
    rcases List.mem_singleton.mp hfid with rfl
    exact ⟨⟨none, none⟩, rfl, rfl, rfl⟩)

/-- The parse of `ES6Compiler.command` into literals and placeholders. -/
theorem es6Command_parse :
    parseA none es6Command.data =
      .ok ("export NODE_PATH=".data.map TItem.lit ++ ([TItem.ph "paths"]
        ++ (" && browserify \"".data.map TItem.lit ++ ([TItem.ph "infile"]
        ++ ("\" -o \"".data.map TItem.lit ++ ([TItem.ph "outfile"]
        ++ ("\" --no-bundle-external --node -t [ ".data.map TItem.lit
        ++ ([TItem.ph "node_modules"]
        ++ ("/babelify --presets=".data.map TItem.lit ++ ([TItem.ph "node_modules"]
        ++ "/babel-preset-es2015 ]".data.map TItem.lit)))))))))) := by rfl

/-- C10: the `node_modules` option of an ES6 job is the configured
`COMPRESS_NODE_MODULES` setting when present and `/usr/lib/node_modules`
otherwise, and substituting the ES6 command template replaces both
`{node_modules}` occurrences with that value. -/
theorem es6_node_modules_option (prev : List (String × String))
    (cnm : Option String) (dirs : List String) (v I O : String) :
    (cnm = some v →
      lookupOpt (es6InitOptions prev cnm dirs) "node_modules" = some v) ∧
    (cnm = none →
      lookupOpt (es6InitOptions prev cnm dirs) "node_modules"
        = some "/usr/lib/node_modules") ∧
    formatCommand es6Command (es6InitOptions [] cnm dirs
        ++ [("infile", I), ("outfile", O)])
      = .ok ("export NODE_PATH=" ++ es6PathsValue dirs ++ " && browserify \""
          ++ I ++ "\" -o \"" ++ O ++ "\" --no-bundle-external --node -t [ "
          ++ nodeModulesValue cnm ++ "/babelify --presets="
          ++ nodeModulesValue cnm ++ "/babel-preset-es2015 ]") := by
  refine ⟨?_, ?_, ?_⟩
  · rintro rfl
    simp [lookupOpt, es6InitOptions, nodeModulesValue, List.find?]
  · rintro rfl
    simp [lookupOpt, es6InitOptions, nodeModulesValue, List.find?]
  · have hP : lookupOpt (es6InitOptions [] cnm dirs
        ++ [("infile", I), ("outfile", O)]) "paths"
        = some (es6PathsValue dirs) := rfl
    have hI : lookupOpt (es6InitOptions [] cnm dirs
        ++ [("infile", I), ("outfile", O)]) "infile" = some I := rfl
    have hO : lookupOpt (es6InitOptions [] cnm dirs
        ++ [("infile", I), ("outfile", O)]) "outfile" = some O := rfl
    have hN : lookupOpt (es6InitOptions [] cnm dirs
        ++ [("infile", I), ("outfile", O)]) "node_modules"
        = some (nodeModulesValue cnm) := rfl
    have hs : substItems (es6InitOptions [] cnm dirs ++ [("infile", I), ("outfile", O)])
        ("export NODE_PATH=".data.map TItem.lit ++ ([TItem.ph "paths"]
          ++ (" && browserify \"".data.map TItem.lit ++ ([TItem.ph "infile"]
          ++ ("\" -o \"".data.map TItem.lit ++ ([TItem.ph "outfile"]
          ++ ("\" --no-bundle-external --node -t [ ".data.map TItem.lit
          ++ ([TItem.ph "node_modules"]
          ++ ("/babelify --presets=".data.map TItem.lit ++ ([TItem.ph "node_modules"]
          ++ "/babel-preset-es2015 ]".data.map TItem.lit))))))))))
        = .ok ("export NODE_PATH=".data ++ ((es6PathsValue dirs).data
          ++ (" && browserify \"".data ++ (I.data
          ++ ("\" -o \"".data ++ (O.data
          ++ ("\" --no-bundle-external --node -t [ ".data
          ++ ((nodeModulesValue cnm).data
          ++ ("/babelify --presets=".data ++ ((nodeModulesValue cnm).data
          ++ "/babel-preset-es2015 ]".data)))))))))) := by
      apply substItems_append_ok _ _ _ _ _ (substItems_lits _ _)
      apply substItems_append_ok _ _ _ _ _ (substItems_ph _ _ _ hP)
      apply substItems_append_ok _ _ _ _ _ (substItems_lits _ _)
      apply substItems_append_ok _ _ _ _ _ (substItems_ph _ _ _ hI)
      apply substItems_append_ok _ _ _ _ _ (substItems_lits _ _)
      apply substItems_append_ok _ _ _ _ _ (substItems_ph _ _ _ hO)
      apply substItems_append_ok _ _ _ _ _ (substItems_lits _ _)
      apply substItems_append_ok _ _ _ _ _ (substItems_ph _ _ _ hN)
      apply substItems_append_ok _ _ _ _ _ (substItems_lits _ _)
      apply substItems_append_ok _ _ _ _ _ (substItems_ph _ _ _ hN)
      exact substItems_lits _ _
    unfold formatCommand
    simp only [es6Command_parse, hs]
    congr 1
    apply String.ext
    simp [string_data_mk, String.data_append]

theorem es6_node_modules_option_witness :
    lookupOpt (es6InitOptions [] (some "/opt/nm") ["/a/static"]) "node_modules"
        = some "/opt/nm" ∧
    lookupOpt (es6InitOptions [] none ["/a/static"]) "node_modules"
        = some "/usr/lib/node_modules" ∧
    formatCommand es6Command (es6InitOptions [] (some "/opt/nm") ["/a/static"]
        ++ [("infile", "in.js"), ("outfile", "out.js")])
      = .ok ("export NODE_PATH=" ++ es6PathsValue ["/a/static"] ++ " && browserify \""
          ++ "in.js" ++ "\" -o \"" ++ "out.js" ++ "\" --no-bundle-external --node -t [ "
          ++ nodeModulesValue (some "/opt/nm") ++ "/babelify --presets="
          ++ nodeModulesValue (some "/opt/nm") ++ "/babel-preset-es2015 ]") :=
  ⟨(es6_node_modules_option [] (some "/opt/nm") ["/a/static"] "/opt/nm"
      "in.js" "out.js").1 rfl,
   (es6_node_modules_option [] none ["/a/static"] "/opt/nm"
      "in.js" "out.js").2.1 rfl,
   (es6_node_modules_option [] (some "/opt/nm") ["/a/static"] "/opt/nm"
      "in.js" "out.js").2.2⟩

end CompressorToolkit
